import Mathlib

/-!
Verification of the DICOM query/download orchestration core (dicomatic).

The definitions below are shallow embeddings of the Python sources
`dicom_query.py`, `query_and_download.py` and `download_dicom.py`:

* Python dictionaries keyed by strings are embedded as association lists
  with insertion-order semantics (`pyDictSet` overwrites in place, appends
  new keys at the end; `dictGet` is `dict.get`).
* `parse_studies_with_demographics` is embedded line by line; the attribute
  regular expression is embedded as a character-level matcher with the same
  (deterministic) backtracking behaviour on ASCII text.
* `parse_subject_digits` / `parse_trailing_substring` share a common
  character-level matcher `matchName` embedding their common regular
  expression skeleton.
* File and subprocess I/O is out of scope; the pure cores of the
  corresponding functions are embedded (e.g. the in-memory metadata
  rebuild of `download_dicom`).
-/

/-- ASCII whitespace as matched by the `\s` class and `str.strip()`:
space, tab, newline, carriage return, vertical tab, form feed. -/
def isPySpace (c : Char) : Bool :=
  (c == ' ') || (c == '\t') || (c == '\n') || (c == '\r') ||
  (c == Char.ofNat 11) || (c == Char.ofNat 12)

/-- ASCII hexadecimal digit, the `[\dA-Fa-f]` class of the attribute line
pattern in `parse_studies_with_demographics`. -/
def isHexDig (c : Char) : Bool :=
  c.isDigit || ('A' ≤ c && c ≤ 'F') || ('a' ≤ c && c ≤ 'f')

/-- Lowercasing of a string (`str.lower()`, ASCII letters). -/
def pyLower (s : String) : String := ⟨s.data.map Char.toLower⟩

/-- `str.strip()`: remove leading and trailing whitespace. -/
def pyStrip (s : String) : String :=
  ⟨((s.data.dropWhile isPySpace).reverse.dropWhile isPySpace).reverse⟩

/-- `str.startswith(pre)`. -/
def pyStartsWith (s pre : String) : Bool := pre.data.isPrefixOf s.data

/-- Python `dict` assignment `d[k] = v`: overwrite the value of an existing
key in place, otherwise append the new binding at the end. -/
def pyDictSet {β : Type} : List (String × β) → String → β → List (String × β)
  | [], f, v => [(f, v)]
  | (k, w) :: rest, f, v =>
    if k = f then (k, v) :: rest else (k, w) :: pyDictSet rest f v

/-- Python `dict.get(k)`: the value of the first (unique) binding of `k`,
or `none` when `k` is absent. -/
def dictGet {β : Type} (r : List (String × β)) (f : String) : Option β :=
  (r.find? (fun p => p.1 == f)).map (·.2)

/-! ## dicom_query.parse_studies_with_demographics -/

/-- One entry of the `tag_map` configuration dictionary:
`{"group_elem": "(gggg,eeee)", "vr": "XX", "field": "field_name"}`.
The attribute names keying `tag_map` are never read by the parser
(it iterates over `tag_map.items()` values), so they are not embedded. -/
structure TagInfo where
  group_elem : String
  vr : String
  field : String
deriving DecidableEq, Repr

/-- `tag_map.items()` in insertion order. -/
abbrev TagMap := List TagInfo

/-- A study record accumulator: the Python dict `current`
(field name → value or `None`). -/
abbrev Record := List (String × Option String)

/-- The `reverse_map` lookup `(group_elem, vr) → field`.  The Python dict is
built by insertion with overwriting, so the last `tag_map` entry with a given
`(group_elem, vr)` pair wins. -/
def lookupRev (tm : TagMap) (ge vr : String) : Option String :=
  (tm.reverse.find? (fun i => i.group_elem == ge && i.vr == vr)).map (·.field)

/-- The freshly reset accumulator: `current[info["field"]] = None` for every
`tag_map` entry, in insertion order. -/
def initRecord (tm : TagMap) : Record :=
  tm.foldl (fun r i => pyDictSet r i.field none) []

/-- Exactly four hexadecimal digits (`[\dA-Fa-f]{4}`), returning them and
the rest of the line. -/
def hex4 : List Char → Option (List Char × List Char)
  | a :: b :: c :: d :: rest =>
    if isHexDig a && isHexDig b && isHexDig c && isHexDig d then
      some ([a, b, c, d], rest)
    else none
  | _ => none

/-- The bracketed value `\[(.*)\]` tail: `.*` is greedy and cannot cross a
newline, so the value runs to the last `]` of the newline-free segment. -/
def lastBracket (cs : List Char) : Option (List Char) :=
  let seg := cs.takeWhile (fun c => c != '\n')
  match seg.reverse.dropWhile (fun c => c != ']') with
  | [] => none
  | _ :: t => some t.reverse

/-- The attribute line pattern
`^\(([\dA-Fa-f]{4},[\dA-Fa-f]{4})\)\s+(\S+)\s+\[(.*)\]` of
`parse_studies_with_demographics`, applied with `re.search` (the `^` anchor
pins it to the line start).  Returns `(group(1), group(2), group(3))`.
The quantifier backtracking is deterministic for this pattern: each
`\s+`/`\S+` consumes a maximal run, and `(.*)` runs to the last `]`. -/
def parseAttrLine (cs : List Char) : Option (String × String × String) :=
  match cs with
  | '(' :: r1 =>
    match hex4 r1 with
    | some (g, r2) =>
      match r2 with
      | ',' :: r3 =>
        match hex4 r3 with
        | some (e, r4) =>
          match r4 with
          | ')' :: r5 =>
            let r6 := r5.dropWhile isPySpace
            if (r5.takeWhile isPySpace).isEmpty then none
            else
              let vr := r6.takeWhile (fun c => !isPySpace c)
              let r7 := r6.dropWhile (fun c => !isPySpace c)
              if vr.isEmpty then none
              else
                let r8 := r7.dropWhile isPySpace
                if (r7.takeWhile isPySpace).isEmpty then none
                else
                  match r8 with
                  | '[' :: r9 =>
                    match lastBracket r9 with
                    | some value =>
                      some (⟨g ++ [','] ++ e⟩, ⟨vr⟩, ⟨value⟩)
                    | none => none
                  | _ => none
          | _ => none
        | none => none
      | _ => none
    | none => none
  | _ => none

/-- Substring containment, the Python `pat in line` test. -/
def hasInfix (pat : List Char) : List Char → Bool
  | [] => pat.isEmpty
  | c :: rest => pat.isPrefixOf (c :: rest) || hasInfix pat rest

/-- End-of-dataset check: `"status=ff00H" in line or "status=0H" in line`. -/
def isTerminator (line : String) : Bool :=
  hasInfix "status=ff00H".data line.data || hasInfix "status=0H".data line.data

/-- The regex-match-and-assign step of the scan loop: when the line matches
the attribute pattern and `(f"({group(1)})", group(2))` is in `reverse_map`,
set the corresponding field of the accumulator (overwriting). -/
def applyAttr (tm : TagMap) (line : String) : Option (String × String) :=
  match parseAttrLine line.data with
  | some (graw, vr, value) =>
    match lookupRev tm ("(" ++ graw ++ ")") vr with
    | some f => some (f, value)
    | none => none
  | none => none

/-- Truthiness of `current.get("study_uid")`: a key that is absent, bound to
`None`, or bound to the empty string is falsy. -/
def truthyOpt : Option String → Bool
  | some s => s != ""
  | none => false

/-- `current.get("study_uid")`, with an absent key and a `None` value both
collapsing to `None` (exactly what `dict.get` returns). -/
def uidProj (r : Record) : Option String :=
  match dictGet r "study_uid" with
  | some v => v
  | none => none

/-- Truthiness of the identifying field of the accumulator. -/
def uidTruthy (r : Record) : Bool := truthyOpt (uidProj r)

/-- Scan state of the parser loop: the accumulator and the appended studies. -/
structure PState where
  current : Record
  studies : List Record
deriving Repr

/-- One iteration of the scan loop of `parse_studies_with_demographics`:
apply the attribute pattern, then (on the same line) the terminator check,
appending a snapshot when the identifying field is truthy and resetting. -/
def parseLine (tm : TagMap) (st : PState) (line : String) : PState :=
  let cur :=
    match applyAttr tm line with
    | some (f, v) => pyDictSet st.current f (some v)
    | none => st.current
  if isTerminator line then
    if uidTruthy cur then ⟨initRecord tm, st.studies ++ [cur]⟩
    else ⟨initRecord tm, st.studies⟩
  else ⟨cur, st.studies⟩

/-- `parse_studies_with_demographics(output, tag_map)`, with `output` given
as its list of lines (`output.splitlines()`).  After the scan the leftover
accumulator is appended when its identifying field is truthy. -/
def parse_studies_with_demographics (lines : List String) (tm : TagMap) :
    List Record :=
  let fin := lines.foldl (parseLine tm) ⟨initRecord tm, []⟩
  if uidTruthy fin.current then fin.studies ++ [fin.current] else fin.studies

/-- Reduced scan state used to state the record-count property: only the
accumulated identifying field and the running count of appended records. -/
structure CState where
  uid : Option String
  count : Nat
deriving Repr

/-- The accumulated `study_uid` value after one line: an attribute line whose
tag pair maps to the field `study_uid` overwrites it, anything else keeps it. -/
def uidVal (tm : TagMap) (line : String) (u : Option String) : Option String :=
  match applyAttr tm line with
  | some (f, v) => if f = "study_uid" then some v else u
  | none => u

/-- One line of the reduced count scan: a terminator line bumps the count
exactly when the accumulated identifying field is non-empty, and resets it. -/
def countLine (tm : TagMap) (st : CState) (line : String) : CState :=
  let u := uidVal tm line st.uid
  if isTerminator line then
    ⟨none, st.count + (if truthyOpt u then 1 else 0)⟩
  else ⟨u, st.count⟩

/-- The number of terminator lines at which the accumulated identifying field
is non-empty, plus one if the final never-terminated accumulator still holds
a non-empty identifying field. -/
def countStudies (lines : List String) (tm : TagMap) : Nat :=
  let fin := lines.foldl (countLine tm) ⟨none, 0⟩
  fin.count + (if truthyOpt fin.uid then 1 else 0)

/-! ## query_and_download: parse_subject_digits / parse_trailing_substring

Both functions match the same regular expression skeleton
`^(?:\d{4}_\d{2}_\d{2}_)?(?:[A-Za-z]*-?)?(\d+)(?:_(.*))?$`
against the patient name (`parse_subject_digits` captures the digit run,
`parse_trailing_substring` captures the trailing text).  `matchName` embeds
that skeleton, returning both captures.  The quantifier backtracking is
deterministic except for the optional date stamp, which is retried without
the stamp when the remainder fails. -/

/-- ASCII letter, the `[A-Za-z]` class. -/
def isAsciiAlpha (c : Char) : Bool :=
  ('A' ≤ c && c ≤ 'Z') || ('a' ≤ c && c ≤ 'z')

/-- `(.*)$`: `.` cannot cross a newline and `$` matches at the end of the
string or just before a final newline, so the capture is the newline-free
segment provided at most a single trailing newline follows it. -/
def matchDotStarEnd (cs : List Char) : Option (List Char) :=
  let t := cs.takeWhile (fun c => c != '\n')
  match cs.dropWhile (fun c => c != '\n') with
  | [] => some t
  | [_] => some t
  | _ => none

/-- `(\d+)(?:_(.*))?$`: a maximal non-empty digit run, then either the end,
or an underscore and the trailing capture.  Shorter digit runs can never
rescue a failure (they leave a digit where `_` or the end is required). -/
def tryDigits (cs : List Char) : Option (String × Option String) :=
  let ds := cs.takeWhile Char.isDigit
  let rest := cs.dropWhile Char.isDigit
  if ds.isEmpty then none
  else
    match rest with
    | [] => some (⟨ds⟩, none)
    | '_' :: r =>
      match matchDotStarEnd r with
      | some t => some (⟨ds⟩, some ⟨t⟩)
      | none => none
    | [c] => if c = '\n' then some (⟨ds⟩, none) else none
    | _ => none

/-- `(?:[A-Za-z]*-?)?` then `tryDigits`: only the maximal letter run can be
followed by a digit, and a hyphen is consumed greedily (retried without when
the remainder fails, which can never succeed since `-` is not a digit). -/
def tryAlphaHyphen (cs : List Char) : Option (String × Option String) :=
  let rest := cs.dropWhile isAsciiAlpha
  match rest with
  | '-' :: r => (tryDigits r).orElse (fun _ => tryDigits rest)
  | _ => tryDigits rest

/-- The optional date stamp `(?:\d{4}_\d{2}_\d{2}_)?`. -/
def stripDate : List Char → Option (List Char)
  | a :: b :: c :: d :: '_' :: e :: f :: '_' :: g :: h :: '_' :: rest =>
    if a.isDigit && b.isDigit && c.isDigit && d.isDigit && e.isDigit &&
       f.isDigit && g.isDigit && h.isDigit then some rest
    else none
  | _ => none

/-- The shared patient-name pattern: date stamp greedily, retrying without it
(Python backtracking) when the rest of the pattern fails. -/
def matchName (cs : List Char) : Option (String × Option String) :=
  match stripDate cs with
  | some rest => (tryAlphaHyphen rest).orElse (fun _ => tryAlphaHyphen cs)
  | none => tryAlphaHyphen cs

/-- `parse_subject_digits`: `"sub-" + digits` when the pattern matched,
otherwise `None` (the extra emptiness check of the source is kept). -/
def parse_subject_digits (name : String) : Option String :=
  match matchName name.data with
  | some (digits, _) => if digits = "" then none else some ("sub-" ++ digits)
  | none => none

/-- `parse_trailing_substring`: `match.group(1)` of the trailing capture,
which is `None` both when the pattern failed and when the trailing group
did not participate. -/
def parse_trailing_substring (name : String) : Option String :=
  match matchName name.data with
  | some (_, t) => t
  | none => none

/-! ## query_and_download.find_session_label -/

/-- `find_session_label(sub_label, trailing, session_map)`: a `session_map`
hit on the lowercased, stripped trailing substring yields the mapped value,
prefixed with `"ses-"` unless already present; every other case is `None`.
`trailing` is optional because call sites pass `parse_trailing_substring`
results; falsy (`None` or empty) arguments short-circuit. -/
def find_session_label (sub_label : String) (trailing : Option String)
    (session_map : List (String × String)) : Option String :=
  if sub_label = "" then none
  else
    match trailing with
    | none => none
    | some tr =>
      if tr = "" then none
      else if session_map.isEmpty then none
      else
        match dictGet session_map (pyStrip (pyLower tr)) with
        | some mapped_val =>
          if mapped_val = "" then none
          else if pyStartsWith mapped_val "ses-" then some mapped_val
          else some ("ses-" ++ mapped_val)
        | none => none

/-! ## query_and_download.main: session assignment loop (modes 1 and 2)

Within one subject group, already sorted by ascending date, each study gets
`find_session_label` applied to its patient name's trailing substring; on a
miss it receives the sequential label `f"ses-{ses_counter:02d}"` and only
then is the counter (started at 1 per group) incremented. -/

/-- Decimal digit character. -/
def digitChar (n : Nat) : Char := Char.ofNat (48 + n)

/-- Decimal rendering of a natural number (fuel-based, fuel suffices). -/
def natDigitsAux : Nat → Nat → List Char → List Char
  | 0, _, acc => acc
  | fuel + 1, n, acc =>
    if n < 10 then digitChar n :: acc
    else natDigitsAux fuel (n / 10) (digitChar (n % 10) :: acc)

/-- Decimal rendering of a natural number. -/
def natToStr (n : Nat) : String := ⟨natDigitsAux (n + 1) n []⟩

/-- `f"ses-{n:02d}"`: zero-padded to at least two digits. -/
def sesPad (n : Nat) : String :=
  "ses-" ++ (if n < 10 then "0" ++ natToStr n else natToStr n)

/-- The session label a study's patient name resolves to via the session
map, or `none` when it falls through to the sequential counter. -/
def mappedLabel (sub : String) (smap : List (String × String))
    (name : String) : Option String :=
  find_session_label sub (parse_trailing_substring name) smap

/-- The per-group assignment loop with its running counter. -/
def assignGo (sub : String) (smap : List (String × String)) :
    Nat → List String → List String
  | _, [] => []
  | ctr, name :: rest =>
    match mappedLabel sub smap name with
    | some l => l :: assignGo sub smap ctr rest
    | none => sesPad ctr :: assignGo sub smap (ctr + 1) rest

/-- Session labels assigned to one subject group (studies given by patient
name, already in ascending date order); the counter starts at 1. -/
def assignSessions (sub : String) (smap : List (String × String))
    (names : List String) : List String :=
  assignGo sub smap 1 names

/-! ## query_and_download.main: local taxonomy matcher (mode 3) -/

/-- Mode 3 reconciliation against the local `sub-*`/`ses-*` folder taxonomy
(`subjects_dict`).  For each queried study (given by its patient name):
resolve the subject label, dropping the study when absent or not a taxonomy
key; resolve a session via `find_session_label`, falling back to the
lowercased/stripped trailing substring when it is itself a listed session;
drop the study unless the session is listed for that subject.  Surviving
studies are annotated with their labels (the output-directory path join is
filesystem glue and not embedded). -/
def matchLocal (subjects_dict : List (String × List String))
    (smap : List (String × String)) : List String →
    List (String × String × String)
  | [] => []
  | name :: rest =>
    match parse_subject_digits name with
    | none => matchLocal subjects_dict smap rest
    | some sub_label =>
      match dictGet subjects_dict sub_label with
      | none => matchLocal subjects_dict smap rest
      | some possible_ses_list =>
        let trailing := parse_trailing_substring name
        let fallback :=
          match trailing with
          | some t => if t = "" then "" else pyStrip (pyLower t)
          | none => ""
        let session_label :=
          match find_session_label sub_label trailing smap with
          | some l => some l
          | none =>
            if possible_ses_list.contains fallback then some fallback
            else none
        match session_label with
        | none => matchLocal subjects_dict smap rest
        | some ses =>
          if possible_ses_list.contains ses then
            (name, sub_label, ses) :: matchLocal subjects_dict smap rest
          else matchLocal subjects_dict smap rest

/-! ## query_and_download.main: selection filter (mode 3) -/

/-- Replace every occurrence of the four-character pattern (the Python
`str.replace(pat, "")` with a length-4 pattern), scanning left to right
without rescanning replaced text. -/
def pyReplace4 (p : Char × Char × Char × Char) : List Char → List Char
  | c1 :: c2 :: c3 :: c4 :: rest =>
    if (c1, c2, c3, c4) = p then pyReplace4 p rest
    else c1 :: pyReplace4 p (c2 :: c3 :: c4 :: rest)
  | s => s

/-- Digit-run to number. -/
def digitsToNat (ds : List Char) : Nat :=
  ds.foldl (fun acc c => acc * 10 + (c.toNat - 48)) 0

/-- Python `int(s)` on optionally signed decimal strings with surrounding
whitespace; anything else raises, embedded as `none`. -/
def pyInt (s : List Char) : Option Int :=
  let cs := ((s.dropWhile isPySpace).reverse.dropWhile isPySpace).reverse
  match cs with
  | '+' :: ds =>
    if ds.isEmpty || !ds.all Char.isDigit then none
    else some (Int.ofNat (digitsToNat ds))
  | '-' :: ds =>
    if ds.isEmpty || !ds.all Char.isDigit then none
    else some (-(Int.ofNat (digitsToNat ds)))
  | ds =>
    if ds.isEmpty || !ds.all Char.isDigit then none
    else some (Int.ofNat (digitsToNat ds))

/-- `sub_numeric_key`: `int(s.replace("sub-", ""))`, or `999999` on failure. -/
def sub_numeric_key (s : String) : Int :=
  match pyInt (pyReplace4 ('s', 'u', 'b', '-') s.data) with
  | some n => n
  | none => 999999

/-- `ses_numeric_key`: `int(s.replace("ses-", ""))`, or `999999` on failure. -/
def ses_numeric_key (s : String) : Int :=
  match pyInt (pyReplace4 ('s', 'e', 's', '-') s.data) with
  | some n => n
  | none => 999999

/-- Python `sorted(l, key=key)` (a stable sort, so extensionally equal to
insertion sort with the non-strict key comparison). -/
def sortByKey (key : String → Int) (l : List String) : List String :=
  List.insertionSort (fun a b => key a ≤ key b) l

/-- The mode-3 index `subject_dict`: subject label → (session label →
study), with studies abstracted to identifiers. -/
abbrev SubjectIndex := List (String × List (String × Nat))

/-- Branch (a) of the selection filter (empty token set): every subject in
`sub_numeric_key` order, every one of its sessions in `ses_numeric_key`
order. -/
def selectAll (d : SubjectIndex) : List Nat :=
  (sortByKey sub_numeric_key (d.map Prod.fst)).bind (fun subj =>
    match dictGet d subj with
    | none => []
    | some m =>
      (sortByKey ses_numeric_key (m.map Prod.fst)).bind (fun ses =>
        match dictGet m ses with
        | none => []
        | some st => [st]))

/-- `recognized_subs`: the tokens that are keys of `subject_dict`, in token
order. -/
def recognizedSubs (d : SubjectIndex) (tokens : List String) : List String :=
  tokens.filter (fun t => (dictGet d t).isSome)

/-- `all_ses_keys` membership: some subject has this session. -/
def isSesKey (d : SubjectIndex) (t : String) : Bool :=
  d.any (fun p => (dictGet p.2 t).isSome)

/-- `recognized_ses`: the tokens that are session keys of some subject, in
token order. -/
def recognizedSes (d : SubjectIndex) (tokens : List String) : List String :=
  tokens.filter (isSesKey d)

/-- Branch (d) of the selection filter (tokens recognized as both subject
and session labels): for each recognized subject, each recognized session it
actually has (the `subj not in subject_dict` re-check of the source is the
`dictGet` match). -/
def selectBoth (d : SubjectIndex) (tokens : List String) : List Nat :=
  (recognizedSubs d tokens).bind (fun subj =>
    match dictGet d subj with
    | none => []
    | some m =>
      (recognizedSes d tokens).bind (fun ses =>
        match dictGet m ses with
        | none => []
        | some st => [st]))

/-! ## download_dicom.download_dicom: metadata side-file rebuild -/

/-- Demographic metadata stored per subject: `{"age": ..., "sex": ...}`. -/
abbrev Meta := Option Nat × String

/-- First maximal digit run of a string as a number (`re.search(r"\d+", s)`
followed by `int`), or `none` when the string has no digit. -/
def firstDigitRun (s : String) : Option Nat :=
  match s.data.dropWhile (fun c => !c.isDigit) with
  | [] => none
  | ds => some (digitsToNat (ds.takeWhile Char.isDigit))

/-- `subject_number(label)`: numeric portion of a subject label for sorting,
with the sentinel `999999999` when the label has no digits. -/
def subject_number (label : String) : Nat :=
  match firstDigitRun label with
  | some n => n
  | none => 999999999

/-- Merging the existing side-file contents into the in-memory store:
`for k, v in existing_data.items(): _collected_metadata[k] = v`. -/
def mergeInto (store fileData : List (String × Meta)) : List (String × Meta) :=
  fileData.foldl (fun acc kv => pyDictSet acc kv.1 kv.2) store

/-- `numeric_age` from the `PatientAge` string, e.g. `"065Y"` gives 65. -/
def numeric_age (patient_age : String) : Option Nat := firstDigitRun patient_age

/-- The pure core of the metadata update in `download_dicom`: merge the
existing file contents into the store, record the current subject's age/sex,
then rebuild the whole mapping with keys in ascending `subject_number`
order (`sorted` is stable; the dict comprehension re-reads each key). -/
def updateMetadata (fileData store : List (String × Meta)) (sub_label : String)
    (patient_age patient_sex : String) : List (String × Meta) :=
  let updated := pyDictSet (mergeInto store fileData) sub_label
    (numeric_age patient_age, patient_sex)
  let sorted_keys := List.insertionSort
    (fun a b => subject_number a ≤ subject_number b) (updated.map Prod.fst)
  sorted_keys.filterMap (fun k => (dictGet updated k).map (fun v => (k, v)))

/-! ## Association-list dictionary lemmas -/

theorem dictGet_nil {β : Type} (f : String) :
    dictGet ([] : List (String × β)) f = none := rfl

theorem dictGet_pyDictSet_self {β : Type} (r : List (String × β)) (f : String)
    (v : β) : dictGet (pyDictSet r f v) f = some v := by
  induction r with
  | nil => simp [pyDictSet, dictGet]
  | cons p rest ih =>
    obtain ⟨k, w⟩ := p
    by_cases h : k = f
    · simp [pyDictSet, dictGet, h, List.find?]
    · simpa [pyDictSet, dictGet, h, List.find?] using ih

theorem dictGet_pyDictSet_ne {β : Type} (r : List (String × β)) {f g : String}
    (h : g ≠ f) (v : β) : dictGet (pyDictSet r f v) g = dictGet r g := by
  induction r with
  | nil =>
    have hfg : (f == g) = false := beq_eq_false_iff_ne.mpr (fun he => h he.symm)
    simp [pyDictSet, dictGet, List.find?, hfg]
  | cons p rest ih =>
    obtain ⟨k, w⟩ := p
    unfold pyDictSet
    by_cases hk : k = f
    · subst hk
      have hkg : (k == g) = false := beq_eq_false_iff_ne.mpr (fun he => h he.symm)
      simp [dictGet, List.find?, hkg]
    · simp only [if_neg hk]
      by_cases hg : k = g
      · have hkg : (k == g) = true := beq_iff_eq.mpr hg
        simp [dictGet, List.find?, hkg]
      · have hkg : (k == g) = false := beq_eq_false_iff_ne.mpr hg
        simp only [dictGet, List.find?, hkg] at ih ⊢
        exact ih

theorem uidProj_of_allNone (r : Record)
    (h : ∀ p ∈ r, p.2 = (none : Option String)) : uidProj r = none := by
  unfold uidProj dictGet
  cases hf : r.find? (fun p => p.1 == "study_uid") with
  | none => simp
  | some p => simp [h p (List.mem_of_find?_eq_some hf)]

theorem pyDictSet_allNone (r : Record) (f : String)
    (h : ∀ p ∈ r, p.2 = (none : Option String)) :
    ∀ p ∈ pyDictSet r f none, p.2 = (none : Option String) := by
  induction r with
  | nil => simp [pyDictSet]
  | cons q rest ih =>
    obtain ⟨k, w⟩ := q
    by_cases hk : k = f
    · intro p hp
      simp only [pyDictSet, hk, if_pos rfl] at hp
      rcases List.mem_cons.mp hp with h1 | h1
      · simp [h1]
      · exact h p (List.mem_cons_of_mem _ h1)
    · intro p hp
      simp only [pyDictSet, hk, if_neg hk] at hp
      rcases List.mem_cons.mp hp with h1 | h1
      · subst h1; exact h (k, w) (List.mem_cons_self _ _)
      · exact ih (fun q hq => h q (List.mem_cons_of_mem _ hq)) p h1

theorem initRecord_allNone (tm : TagMap) :
    ∀ p ∈ initRecord tm, p.2 = (none : Option String) := by
  have main : ∀ (ts : TagMap) (r : Record),
      (∀ p ∈ r, p.2 = (none : Option String)) →
      ∀ p ∈ ts.foldl (fun r i => pyDictSet r i.field none) r, p.2 = none := by
    intro ts
    induction ts with
    | nil => intro r hr; simpa using hr
    | cons i rest ih =>
      intro r hr
      simp only [List.foldl_cons]
      exact ih _ (pyDictSet_allNone r i.field hr)
  exact main tm [] (by simp)

theorem uidProj_initRecord (tm : TagMap) : uidProj (initRecord tm) = none :=
  uidProj_of_allNone _ (initRecord_allNone tm)

theorem uidTruthy_initRecord (tm : TagMap) : uidTruthy (initRecord tm) = false := by
  simp [uidTruthy, uidProj_initRecord, truthyOpt]

theorem uidProj_pyDictSet_uid (r : Record) (v : Option String) :
    uidProj (pyDictSet r "study_uid" v) = v := by
  simp [uidProj, dictGet_pyDictSet_self]

theorem uidProj_pyDictSet_ne (r : Record) {f : String} (h : f ≠ "study_uid")
    (v : Option String) : uidProj (pyDictSet r f v) = uidProj r := by
  simp [uidProj, dictGet_pyDictSet_ne r (fun he => h he.symm) v]

/-! ## Parser scan invariants -/

theorem uidProj_applyAttr (tm : TagMap) (line : String) (r : Record) :
    uidProj (match applyAttr tm line with
             | some (f, v) => pyDictSet r f (some v)
             | none => r) = uidVal tm line (uidProj r) := by
  unfold uidVal
  cases h : applyAttr tm line with
  | none => simp
  | some fv =>
    obtain ⟨f, v⟩ := fv
    by_cases hf : f = "study_uid"
    · subst hf; simp [uidProj_pyDictSet_uid]
    · simp [hf, uidProj_pyDictSet_ne r hf]

theorem parseLine_step (tm : TagMap) (line : String) (r : Record)
    (s : List Record) (u : Option String) (k : Nat) (hu : uidProj r = u)
    (hk : s.length = k) :
    uidProj (parseLine tm ⟨r, s⟩ line).current = (countLine tm ⟨u, k⟩ line).uid
    ∧ (parseLine tm ⟨r, s⟩ line).studies.length
      = (countLine tm ⟨u, k⟩ line).count := by
  have hcur := uidProj_applyAttr tm line r
  rw [hu] at hcur
  unfold parseLine countLine
  by_cases ht : isTerminator line
  · by_cases htr : truthyOpt (uidVal tm line u) = true
    · simp [ht, htr, uidTruthy, hcur, uidProj_initRecord, hk]
    · simp [ht, htr, uidTruthy, hcur, uidProj_initRecord, hk,
        Bool.not_eq_true _ ▸ htr]
  · simp [ht, hcur, hk]

theorem parse_fold_count (tm : TagMap) (lines : List String) :
    ∀ (r : Record) (s : List Record) (u : Option String) (k : Nat),
    uidProj r = u → s.length = k →
    uidProj ((lines.foldl (parseLine tm) ⟨r, s⟩).current)
      = (lines.foldl (countLine tm) ⟨u, k⟩).uid
    ∧ ((lines.foldl (parseLine tm) ⟨r, s⟩).studies).length
      = (lines.foldl (countLine tm) ⟨u, k⟩).count := by
  induction lines with
  | nil => intro r s u k hu hk; exact ⟨hu, hk⟩
  | cons line rest ih =>
    intro r s u k hu hk
    simp only [List.foldl_cons]
    obtain ⟨h1, h2⟩ := parseLine_step tm line r s u k hu hk
    have := ih (parseLine tm ⟨r, s⟩ line).current
      (parseLine tm ⟨r, s⟩ line).studies
      (countLine tm ⟨u, k⟩ line).uid (countLine tm ⟨u, k⟩ line).count h1 h2
    simpa using this

/-- C1: for every input text (given as its list of lines) and every tag
dictionary defining a field named `study_uid`, the number of records
returned by `parse_studies_with_demographics` equals the number of
terminator lines at which the accumulated `study_uid` field is non-empty,
plus one if the final never-terminated accumulator still has a non-empty
`study_uid` (that leftover accumulator being appended as a record). -/
theorem C1_record_count (lines : List String) (tm : TagMap)
    (_h : ∃ i ∈ tm, i.field = "study_uid") :
    (parse_studies_with_demographics lines tm).length = countStudies lines tm := by
  obtain ⟨h1, h2⟩ := parse_fold_count tm lines (initRecord tm) [] none 0
    (uidProj_initRecord tm) rfl
  unfold parse_studies_with_demographics countStudies
  by_cases htr :
      truthyOpt ((lines.foldl (countLine tm) ⟨none, 0⟩).uid) = true
  · simp [uidTruthy, h1, h2, htr]
  · simp [uidTruthy, h1, h2, htr]

/-- Witness for C1 at a concrete two-line text and one-entry tag map. -/
theorem C1_record_count_witness :
    (parse_studies_with_demographics ["(0020,000D) UI [1.2]", "status=0H"]
      [⟨"(0020,000D)", "UI", "study_uid"⟩]).length
    = countStudies ["(0020,000D) UI [1.2]", "status=0H"]
      [⟨"(0020,000D)", "UI", "study_uid"⟩] :=
  C1_record_count _ _ ⟨⟨"(0020,000D)", "UI", "study_uid"⟩, by decide⟩

/-! ## Absent identifying field -/

theorem lookupRev_field_mem (tm : TagMap) (ge vr f : String)
    (h : lookupRev tm ge vr = some f) : ∃ i ∈ tm, i.field = f := by
  unfold lookupRev at h
  cases hf : tm.reverse.find? (fun i => i.group_elem == ge && i.vr == vr) with
  | none => rw [hf] at h; cases h
  | some i =>
    rw [hf] at h
    simp only [Option.map_some'] at h
    exact ⟨i, List.mem_reverse.mp (List.mem_of_find?_eq_some hf),
      Option.some.injEq _ _ ▸ h⟩

theorem applyAttr_field_mem (tm : TagMap) (line : String) (f v : String)
    (h : applyAttr tm line = some (f, v)) : ∃ i ∈ tm, i.field = f := by
  unfold applyAttr at h
  cases hp : parseAttrLine line.data with
  | none => rw [hp] at h; cases h
  | some t =>
    obtain ⟨g, vr, val⟩ := t
    rw [hp] at h
    cases hl : lookupRev tm ("(" ++ g ++ ")") vr with
    | none => simp [hl] at h
    | some f' =>
      simp only [hl] at h
      obtain ⟨h1, -⟩ := Prod.mk.injEq .. ▸ Option.some.injEq .. ▸ h
      exact h1 ▸ lookupRev_field_mem tm _ vr f' hl

theorem uidTruthy_of_no_uid (r : Record)
    (h : dictGet r "study_uid" = none) : uidTruthy r = false := by
  simp [uidTruthy, uidProj, h, truthyOpt]

theorem initRecord_no_uid (tm : TagMap)
    (h : ∀ i ∈ tm, i.field ≠ "study_uid") :
    dictGet (initRecord tm) "study_uid" = none := by
  have main : ∀ (ts : TagMap) (r : Record),
      (∀ i ∈ ts, i.field ≠ "study_uid") → dictGet r "study_uid" = none →
      dictGet (ts.foldl (fun r i => pyDictSet r i.field none) r) "study_uid"
        = none := by
    intro ts
    induction ts with
    | nil => intro r _ hr; simpa using hr
    | cons i rest ih =>
      intro r hs hr
      simp only [List.foldl_cons]
      refine ih _ (fun j hj => hs j (List.mem_cons_of_mem _ hj)) ?_
      rw [dictGet_pyDictSet_ne r
        (fun he => hs i (List.mem_cons_self _ _) he.symm) none]
      exact hr
  exact main tm [] h rfl

theorem parse_loop_no_uid (tm : TagMap)
    (h : ∀ i ∈ tm, i.field ≠ "study_uid") (lines : List String) :
    ∀ (r : Record) (s : List Record), dictGet r "study_uid" = none →
    dictGet ((lines.foldl (parseLine tm) ⟨r, s⟩).current) "study_uid" = none
    ∧ (lines.foldl (parseLine tm) ⟨r, s⟩).studies = s := by
  induction lines with
  | nil => intro r s hr; exact ⟨hr, rfl⟩
  | cons line rest ih =>
    intro r s hr
    have hcur : dictGet (match applyAttr tm line with
        | some (f, v) => pyDictSet r f (some v)
        | none => r) "study_uid" = none := by
      cases ha : applyAttr tm line with
      | none => simpa using hr
      | some fv =>
        obtain ⟨f, v⟩ := fv
        obtain ⟨i, hi, hif⟩ := applyAttr_field_mem tm line f v ha
        simp only
        rw [dictGet_pyDictSet_ne r (fun he => h i hi (hif.trans he.symm))]
        exact hr
    simp only [List.foldl_cons]
    unfold parseLine
    by_cases ht : isTerminator line
    · simp only [ht, if_true, uidTruthy_of_no_uid _ hcur, if_false,
        Bool.false_eq_true]
      exact ih (initRecord tm) s (initRecord_no_uid tm h)
    · simp only [ht, if_false, Bool.false_eq_true]
      exact ih _ s hcur

/-- C10: the parser's identifying field is the literal field name
`study_uid`; with a tag dictionary in which no entry has that field name,
`parse_studies_with_demographics` returns the empty list on every input. -/
theorem C10_no_uid_field_empty (tm : TagMap)
    (h : ∀ i ∈ tm, i.field ≠ "study_uid") (lines : List String) :
    parse_studies_with_demographics lines tm = [] := by
  obtain ⟨h1, h2⟩ := parse_loop_no_uid tm h lines (initRecord tm) []
    (initRecord_no_uid tm h)
  unfold parse_studies_with_demographics
  simp [uidTruthy_of_no_uid _ h1, h2]

/-- Witness for C10: a patient-name-only tag map yields no records even on
well-formed input with terminators. -/
theorem C10_no_uid_field_empty_witness :
    parse_studies_with_demographics
      ["(0010,0010) PN [Doe^Jane]", "status=ff00H"]
      [⟨"(0010,0010)", "PN", "patient_name"⟩] = [] :=
  C10_no_uid_field_empty _ (by decide) _

/-- C8: a tag mapped to the same record field on two attribute lines before
a terminator yields the second (later) value in the record produced at that
terminator — the earlier value is overwritten, not appended. -/
theorem C8_overwrite (tm : TagMap) (l1 l2 t : String) (f v1 v2 : String)
    (h1 : applyAttr tm l1 = some (f, v1)) (h2 : applyAttr tm l2 = some (f, v2))
    (ht1 : isTerminator l1 = false) (ht2 : isTerminator l2 = false)
    (ht : isTerminator t = true) (hta : applyAttr tm t = none)
    (huid : uidTruthy
      (pyDictSet (pyDictSet (initRecord tm) f (some v1)) f (some v2)) = true) :
    parse_studies_with_demographics [l1, l2, t] tm
      = [pyDictSet (pyDictSet (initRecord tm) f (some v1)) f (some v2)]
    ∧ dictGet (pyDictSet (pyDictSet (initRecord tm) f (some v1)) f (some v2))
        f = some (some v2) := by
  refine ⟨?_, dictGet_pyDictSet_self _ _ _⟩
  unfold parse_studies_with_demographics
  simp [parseLine, h1, h2, ht1, ht2, ht, hta, huid, uidTruthy_initRecord]

/-- Witness for C8: the StudyInstanceUID tag repeated before the terminator;
the produced record holds the second value `B`. -/
theorem C8_overwrite_witness :
    parse_studies_with_demographics
      ["(0020,000D) UI [A]", "(0020,000D) UI [B]", "status=ff00H"]
      [⟨"(0020,000D)", "UI", "study_uid"⟩]
      = [pyDictSet (pyDictSet (initRecord [⟨"(0020,000D)", "UI", "study_uid"⟩])
          "study_uid" (some "A")) "study_uid" (some "B")]
    ∧ dictGet (pyDictSet (pyDictSet (initRecord
          [⟨"(0020,000D)", "UI", "study_uid"⟩])
          "study_uid" (some "A")) "study_uid" (some "B")) "study_uid"
        = some (some "B") :=
  C8_overwrite _ _ _ _ _ _ _ (by decide) (by decide) (by decide) (by decide)
    (by decide) (by decide) (by decide)

/-! ## Identity resolver claims -/

/-- C6: the documented examples of the identity resolver. -/
theorem C6_resolver_examples :
    parse_subject_digits "2023_08_22_001_baseline" = some "sub-001"
    ∧ parse_trailing_substring "2023_08_22_001_baseline" = some "baseline"
    ∧ parse_subject_digits "baseline" = none := by
  refine ⟨?_, ?_, ?_⟩ <;> decide

theorem string_mk_ne_empty (ds : List Char) (h : ds ≠ []) :
    (⟨ds⟩ : String) ≠ "" := by
  intro hcon
  apply h
  simpa using congrArg String.data hcon

theorem tryDigits_digits_ne (cs : List Char) (d : String) (tr : Option String)
    (h : tryDigits cs = some (d, tr)) : d ≠ "" := by
  unfold tryDigits at h
  by_cases he : (cs.takeWhile Char.isDigit).isEmpty
  · simp [he] at h
  · have hne : cs.takeWhile Char.isDigit ≠ [] := by
      simpa [List.isEmpty_iff] using he
    simp only [he, Bool.false_eq_true, if_false] at h
    split at h
    · obtain ⟨rfl, rfl⟩ := by simpa using h
      exact string_mk_ne_empty _ hne
    · split at h
      · obtain ⟨rfl, rfl⟩ := by simpa using h
        exact string_mk_ne_empty _ hne
      · cases h
    · split at h
      · obtain ⟨rfl, rfl⟩ := by simpa using h
        exact string_mk_ne_empty _ hne
      · cases h
    · cases h

theorem tryAlphaHyphen_digits_ne (cs : List Char) (d : String)
    (tr : Option String) (h : tryAlphaHyphen cs = some (d, tr)) : d ≠ "" := by
  simp only [tryAlphaHyphen] at h
  split at h
  · rcases Option.orElse_eq_some' .. |>.mp h with h1 | ⟨-, h1⟩ <;>
      exact tryDigits_digits_ne _ _ _ h1
  · exact tryDigits_digits_ne _ _ _ h

theorem matchName_digits_ne (cs : List Char) (d : String) (tr : Option String)
    (h : matchName cs = some (d, tr)) : d ≠ "" := by
  simp only [matchName] at h
  split at h
  · rcases Option.orElse_eq_some' .. |>.mp h with h1 | ⟨-, h1⟩ <;>
      exact tryAlphaHyphen_digits_ne _ _ _ h1
  · exact tryAlphaHyphen_digits_ne _ _ _ h

/-- C7: whenever `parse_trailing_substring` extracts a trailing descriptor,
`parse_subject_digits` succeeds on the same patient name: a trailing
descriptor can only exist when the digit capture matched. -/
theorem C7_trailing_implies_subject (name : String) (t : String)
    (h : parse_trailing_substring name = some t) :
    ∃ s, parse_subject_digits name = some s := by
  unfold parse_trailing_substring at h
  unfold parse_subject_digits
  cases hm : matchName name.data with
  | none => rw [hm] at h; cases h
  | some p =>
    obtain ⟨d, tr⟩ := p
    have hd := matchName_digits_ne _ _ _ hm
    simp [hd]

/-- Witness for C7 at the patient name `001_b`. -/
theorem C7_trailing_implies_subject_witness :
    ∃ s, parse_subject_digits "001_b" = some s :=
  C7_trailing_implies_subject "001_b" "b" (by decide)

/-! ## Session-map lookup (find_session_label) -/

/-- Counterexample to C3 as stated: the session map `{"Baseline": "01"}`
contains a key equal (hence matching case-insensitively and ignoring
whitespace) to the trailing descriptor `"Baseline"`, yet
`find_session_label` returns `None` rather than the mapped value prefixed
with `ses-`: the code looks up only the lowercased, stripped trailing
descriptor, so a non-lowercase map key is never matched. -/
theorem C3_counterexample :
    find_session_label "sub-001" (some "Baseline") [("Baseline", "01")]
      ≠ some "ses-01"
    ∧ find_session_label "sub-001" (some "Baseline") [("Baseline", "01")]
      = none := by
  refine ⟨?_, ?_⟩ <;> decide

/-- C3 amended: if looking up the lowercased, whitespace-stripped trailing
descriptor in the session map yields a non-empty value, and the subject
label and trailing descriptor are non-empty, then `find_session_label`
returns the mapped value, prefixed with `ses-` exactly when the mapped
value does not already start with `ses-`. -/
theorem C3_session_map_hit (sub tr : String) (smap : List (String × String))
    (v : String) (hsub : sub ≠ "") (htr : tr ≠ "")
    (hv : dictGet smap (pyStrip (pyLower tr)) = some v) (hv2 : v ≠ "") :
    find_session_label sub (some tr) smap
      = some (if pyStartsWith v "ses-" then v else "ses-" ++ v) := by
  have hne : smap.isEmpty = false := by
    cases smap with
    | nil => cases hv
    | cons p rest => rfl
  simp [find_session_label, hsub, htr, hne, hv, hv2, apply_ite Option.some]

/-- Witness for the amended C3: trailing `" Baseline "` strips and lowers
to the map key `baseline`, and the mapped value `01` gains the prefix. -/
theorem C3_session_map_hit_witness :
    find_session_label "sub-001" (some " Baseline ") [("baseline", "01")]
      = some (if pyStartsWith "01" "ses-" then "01" else "ses-" ++ "01") :=
  C3_session_map_hit "sub-001" " Baseline " [("baseline", "01")] "01"
    (by decide) (by decide) (by decide) (by decide)

/-! ## Sequential session counter (modes 1 and 2) -/

/-! ## Sequential session counter (modes 1 and 2) -/

theorem range_map_shift (f : Nat → String) (c k : Nat) :
    (List.range (k + 1)).map (fun i => f (c + i))
    = f c :: (List.range k).map (fun i => f (c + 1 + i)) := by
  rw [List.range_succ_eq_map, List.map_cons, List.map_map]
  refine congrArg₂ _ (by rw [Nat.add_zero]) ?_
  refine List.map_congr_left (fun a _ => ?_)
  simp only [Function.comp, Nat.succ_eq_add_one]
  exact congrArg f (by omega)

theorem assignGo_spec (sub : String) (smap : List (String × String)) :
    ∀ (names : List String) (c : Nat),
    (assignGo sub smap c names).length = names.length
    ∧ ((names.zip (assignGo sub smap c names)).all
        (fun p => match mappedLabel sub smap p.1 with
                  | some l => p.2 == l
                  | none => true)) = true
    ∧ ((names.zip (assignGo sub smap c names)).filter
        (fun p => (mappedLabel sub smap p.1).isNone)).map Prod.snd
      = (List.range
          ((names.filter (fun n => (mappedLabel sub smap n).isNone)).length)).map
          (fun i => sesPad (c + i)) := by
  intro names
  induction names with
  | nil => intro c; refine ⟨rfl, rfl, rfl⟩
  | cons n rest ih =>
    intro c
    cases hm : mappedLabel sub smap n with
    | some l =>
      obtain ⟨ih1, ih2, ih3⟩ := ih c
      refine ⟨by simp [assignGo, hm, ih1], ?_, ?_⟩
      · simp [assignGo, hm, List.all_cons, ih2]
      · simp [assignGo, hm, List.filter_cons, ih3]
    | none =>
      obtain ⟨ih1, ih2, ih3⟩ := ih (c + 1)
      refine ⟨by simp [assignGo, hm, ih1], ?_, ?_⟩
      · simp [assignGo, hm, List.all_cons, ih2]
      · simp only [assignGo, hm, List.zip_cons_cons, List.filter_cons,
          Option.isNone_none, List.map_cons, List.length_cons, if_true]
        rw [ih3, range_map_shift]

/-- C2: in one subject group processed in ascending date order, session-map
misses receive sequential labels: the output has one label per study,
studies resolved through the session map keep their mapped label and do not
consume a counter value, and the k-th unmapped study (k counted from 1 over
unmapped studies only, regardless of interleaved mapped studies) receives
`sesPad k`, i.e. `ses-` followed by the zero-padded two-digit counter. -/
theorem C2_sequential_counter (sub : String) (smap : List (String × String))
    (names : List String) :
    (assignSessions sub smap names).length = names.length
    ∧ ((names.zip (assignSessions sub smap names)).all
        (fun p => match mappedLabel sub smap p.1 with
                  | some l => p.2 == l
                  | none => true)) = true
    ∧ ((names.zip (assignSessions sub smap names)).filter
        (fun p => (mappedLabel sub smap p.1).isNone)).map Prod.snd
      = (List.range
          ((names.filter (fun n => (mappedLabel sub smap n).isNone)).length)).map
          (fun i => sesPad (1 + i)) :=
  assignGo_spec sub smap names 1

theorem matchLocal_mem (dict : List (String × List String))
    (smap : List (String × String)) :
    ∀ (names : List String) (e : String × String × String),
    e ∈ matchLocal dict smap names →
    ∃ lst, parse_subject_digits e.1 = some e.2.1
      ∧ dictGet dict e.2.1 = some lst := by
  intro names
  induction names with
  | nil => intro e he; cases he
  | cons n rest ih =>
    intro e he
    unfold matchLocal at he
    cases hs : parse_subject_digits n with
    | none => rw [hs] at he; exact ih e he
    | some sub =>
      rw [hs] at he
      simp only at he
      cases hd : dictGet dict sub with
      | none => rw [hd] at he; exact ih e he
      | some lst =>
        rw [hd] at he
        simp only at he
        split at he
        · exact ih e he
        · split at he
          · rcases List.mem_cons.mp he with rfl | he2
            · exact ⟨lst, hs, hd⟩
            · exact ih e he2
          · exact ih e he

/-- C4: in the reconcile-with-local-folders mode, a candidate study whose
patient name yields no subject label, or whose subject label is not a key of
the local taxonomy, never appears in the matched output — with no condition
on its trailing descriptor, which may well equal a valid session label of
another subject. -/
theorem C4_taxonomy_filter (dict : List (String × List String))
    (smap : List (String × String)) (names : List String) (name : String)
    (h : match parse_subject_digits name with
         | none => True
         | some s => dictGet dict s = none) :
    ((matchLocal dict smap names).all (fun e => e.1 != name)) = true := by
  rw [List.all_eq_true]
  intro e he
  obtain ⟨lst, h1, h2⟩ := matchLocal_mem dict smap names e he
  refine bne_iff_ne.mpr (fun hcon => ?_)
  rw [hcon] at h1
  rw [h1] at h
  simp only at h
  rw [h] at h2
  cases h2

/-- Witness for C4: the record `002_ses-01` is excluded although its
trailing descriptor `ses-01` is a valid session of `sub-001`. -/
theorem C4_taxonomy_filter_witness :
    ((matchLocal [("sub-001", ["ses-01"])] []
        ["002_ses-01", "2023_01_01_001_ses-01"]).all
      (fun e => e.1 != "002_ses-01")) = true :=
  C4_taxonomy_filter [("sub-001", ["ses-01"])] []
    ["002_ses-01", "2023_01_01_001_ses-01"] "002_ses-01"
    (show dictGet [("sub-001", ["ses-01"])] "sub-002" = none by decide)

/-! ## Selection filter (mode 3) -/

theorem mem_sortByKey (key : String → Int) (l : List String) (x : String) :
    x ∈ sortByKey key l ↔ x ∈ l :=
  (List.perm_insertionSort _ l).mem_iff

theorem dictGet_eq_some_mem {β : Type} (d : List (String × β)) (s : String)
    (m : β) (h : dictGet d s = some m) : (s, m) ∈ d := by
  unfold dictGet at h
  cases hf : d.find? (fun p => p.1 == s) with
  | none => rw [hf] at h; cases h
  | some p =>
    rw [hf] at h
    simp only [Option.map_some'] at h
    have hp := List.find?_some hf
    have hm := List.mem_of_find?_eq_some hf
    obtain ⟨p1, p2⟩ := p
    obtain rfl : p1 = s := by simpa using hp
    obtain rfl : p2 = m := by simpa using h
    exact hm

theorem dictGet_mem_keys {β : Type} (d : List (String × β)) (s : String)
    (m : β) (h : dictGet d s = some m) : s ∈ d.map Prod.fst :=
  List.mem_map.mpr ⟨(s, m), dictGet_eq_some_mem d s m h, rfl⟩

theorem mem_selectAll (d : SubjectIndex) (x : Nat) :
    x ∈ selectAll d ↔
    ∃ s m t, dictGet d s = some m ∧ dictGet m t = some x := by
  unfold selectAll
  rw [List.mem_bind]
  constructor
  · rintro ⟨subj, -, hx⟩
    cases hd : dictGet d subj with
    | none => rw [hd] at hx; cases hx
    | some m =>
      rw [hd] at hx
      rw [List.mem_bind] at hx
      obtain ⟨ses, -, hx⟩ := hx
      cases hm : dictGet m ses with
      | none => rw [hm] at hx; cases hx
      | some st =>
        rw [hm] at hx
        rcases List.mem_singleton.mp hx with rfl
        exact ⟨subj, m, ses, hd, hm⟩
  · rintro ⟨s, m, t, hd, hm⟩
    refine ⟨s, (mem_sortByKey _ _ _).mpr (dictGet_mem_keys d s m hd), ?_⟩
    rw [hd, List.mem_bind]
    refine ⟨t, (mem_sortByKey _ _ _).mpr (dictGet_mem_keys m t x hm), ?_⟩
    rw [hm]
    exact List.mem_singleton.mpr rfl

theorem mem_selectBoth (d : SubjectIndex) (tokens : List String) (x : Nat) :
    x ∈ selectBoth d tokens ↔
    ∃ s t m, s ∈ recognizedSubs d tokens ∧ t ∈ recognizedSes d tokens
      ∧ dictGet d s = some m ∧ dictGet m t = some x := by
  unfold selectBoth
  rw [List.mem_bind]
  constructor
  · rintro ⟨subj, hsub, hx⟩
    cases hd : dictGet d subj with
    | none => rw [hd] at hx; cases hx
    | some m =>
      rw [hd] at hx
      rw [List.mem_bind] at hx
      obtain ⟨ses, hses, hx⟩ := hx
      cases hm : dictGet m ses with
      | none => rw [hm] at hx; cases hx
      | some st =>
        rw [hm] at hx
        rcases List.mem_singleton.mp hx with rfl
        exact ⟨subj, ses, m, hsub, hses, hd, hm⟩
  · rintro ⟨s, t, m, hs, ht, hd, hm⟩
    refine ⟨s, hs, ?_⟩
    rw [hd, List.mem_bind]
    refine ⟨t, ht, ?_⟩
    rw [hm]
    exact List.mem_singleton.mpr rfl

/-- C5: branch (d) of the selection filter selects exactly the studies at
pairs of a recognized subject and a recognized session present in that
subject's index entry; this selection is a subset of the select-all branch
(a); and when the recognized token sets cover every subject and every
session of the index, the two branches select the same set. -/
theorem C5_selection_filter (d : SubjectIndex) (tokens : List String) :
    (∀ x : Nat, x ∈ selectBoth d tokens ↔
      ∃ s t m, s ∈ recognizedSubs d tokens ∧ t ∈ recognizedSes d tokens
        ∧ dictGet d s = some m ∧ dictGet m t = some x)
    ∧ (∀ x ∈ selectBoth d tokens, x ∈ selectAll d)
    ∧ (((∀ p ∈ d, p.1 ∈ recognizedSubs d tokens)
        ∧ (∀ p ∈ d, ∀ q ∈ p.2, q.1 ∈ recognizedSes d tokens)) →
       ∀ x : Nat, (x ∈ selectBoth d tokens ↔ x ∈ selectAll d)) := by
  refine ⟨mem_selectBoth d tokens, ?_, ?_⟩
  · intro x hx
    obtain ⟨s, t, m, -, -, hd, hm⟩ := (mem_selectBoth d tokens x).mp hx
    exact (mem_selectAll d x).mpr ⟨s, m, t, hd, hm⟩
  · rintro ⟨cov1, cov2⟩ x
    constructor
    · intro hx
      obtain ⟨s, t, m, -, -, hd, hm⟩ := (mem_selectBoth d tokens x).mp hx
      exact (mem_selectAll d x).mpr ⟨s, m, t, hd, hm⟩
    · intro hx
      obtain ⟨s, m, t, hd, hm⟩ := (mem_selectAll d x).mp hx
      refine (mem_selectBoth d tokens x).mpr
        ⟨s, t, m, cov1 (s, m) (dictGet_eq_some_mem d s m hd), ?_, hd, hm⟩
      exact cov2 (s, m) (dictGet_eq_some_mem d s m hd) (t, x)
        (dictGet_eq_some_mem m t x hm)

/-- Witness for C5: a one-subject, one-session index with full token
coverage, where branches (a) and (d) agree on the study `7`. -/
theorem C5_selection_filter_witness :
    7 ∈ selectBoth [("sub-001", [("ses-01", 7)])] ["sub-001", "ses-01"]
    ↔ 7 ∈ selectAll [("sub-001", [("ses-01", 7)])] :=
  (C5_selection_filter [("sub-001", [("ses-01", 7)])]
    ["sub-001", "ses-01"]).2.2 ⟨by decide, by decide⟩ 7

/-! ## Metadata side-file rebuild ordering -/

theorem map_fst_filterMap_sublist {β : Type} (g : String → Option β)
    (l : List String) :
    ((l.filterMap (fun k => (g k).map (fun v => (k, v)))).map
      Prod.fst).Sublist l := by
  induction l with
  | nil => simp
  | cons a l ih =>
    cases hg : g a with
    | none =>
      simp only [List.filterMap_cons, hg]
      exact ih.cons a
    | some v =>
      simp only [List.filterMap_cons, hg, Option.map_some', List.map_cons]
      exact ih.cons₂ a

theorem dictGet_eq_none_iff {β : Type} (d : List (String × β)) (k : String) :
    dictGet d k = none ↔ ∀ x ∈ d, ¬x.1 = k := by
  unfold dictGet
  rw [Option.map_eq_none', List.find?_eq_none]
  constructor
  · intro h x hx
    simpa using h x hx
  · intro h x hx
    simpa using h x hx

theorem dictGet_eq_some_of {β : Type} (d : List (String × β)) (k : String)
    (v : β) (hmem : (k, v) ∈ d) (huniq : ∀ x ∈ d, x.1 = k → x.2 = v) :
    dictGet d k = some v := by
  unfold dictGet
  cases hf : d.find? (fun p => p.1 == k) with
  | none =>
    rw [List.find?_eq_none] at hf
    exact absurd (by simp : (((k, v) : String × β).1 == k) = true) (hf _ hmem)
  | some p =>
    have hp := List.find?_some hf
    have hpm := List.mem_of_find?_eq_some hf
    have hk : p.1 = k := by simpa using hp
    simp [huniq p hpm hk]

theorem dictGet_rebuild {β : Type} (upd : List (String × β))
    (keys : List String) (hkeys : ∀ k, k ∈ keys ↔ k ∈ upd.map Prod.fst) :
    ∀ k, dictGet
      (keys.filterMap (fun k => (dictGet upd k).map (fun v => (k, v)))) k
      = dictGet upd k := by
  intro k
  cases h : dictGet upd k with
  | none =>
    rw [dictGet_eq_none_iff]
    intro x hx
    obtain ⟨k', hk', hx'⟩ := List.mem_filterMap.mp hx
    cases hg : dictGet upd k' with
    | none => rw [hg] at hx'; cases hx'
    | some v =>
      rw [hg] at hx'
      simp only [Option.map_some', Option.some.injEq] at hx'
      subst hx'
      intro hcon
      rw [show k' = k from hcon] at hg
      rw [h] at hg
      cases hg
  | some v =>
    have hkmem : k ∈ keys := (hkeys k).mpr (dictGet_mem_keys upd k v h)
    refine dictGet_eq_some_of _ _ _
      (List.mem_filterMap.mpr ⟨k, hkmem, by rw [h]; rfl⟩) ?_
    intro x hx hxk
    obtain ⟨k', hk', hx'⟩ := List.mem_filterMap.mp hx
    cases hg : dictGet upd k' with
    | none => rw [hg] at hx'; cases hx'
    | some v' =>
      rw [hg] at hx'
      simp only [Option.map_some', Option.some.injEq] at hx'
      subst hx'
      simp only at hxk
      rw [hxk] at hg
      rw [h] at hg
      simpa using hg.symm

/-- Counterexample to C9 as stated: after an update, the rebuilt metadata
keys are `["nokey", "sub-1000000000"]` — the digit-free label `nokey`
(sentinel 999999999) sorts *before* the numeric label whose first digit run
is 1000000000, so a label with no digits does not sort after all numeric
labels. -/
theorem C9_counterexample :
    (updateMetadata [] [("nokey", (none, "F"))] "sub-1000000000" "030Y"
      "M").map Prod.fst = ["nokey", "sub-1000000000"]
    ∧ firstDigitRun "nokey" = none
    ∧ firstDigitRun "sub-1000000000" = some 1000000000 := by
  refine ⟨?_, ?_, ?_⟩ <;> decide

/-- C9 amended: every metadata write rebuilds the file in full — the
written association represents exactly the updated in-memory mapping — with
keys in ascending `subject_number` order, where a label containing no
digits gets the sentinel key 999999999 (so it sorts after exactly those
numeric labels whose first digit run is below the sentinel, not after all
numeric labels). -/
theorem C9_metadata_order (fileData store : List (String × Meta))
    (sub age sex : String) :
    ((updateMetadata fileData store sub age sex).map Prod.fst).Pairwise
      (fun a b => subject_number a ≤ subject_number b)
    ∧ (∀ k, dictGet (updateMetadata fileData store sub age sex) k
        = dictGet (pyDictSet (mergeInto store fileData) sub
            (numeric_age age, sex)) k)
    ∧ (∀ l : String, firstDigitRun l = none
        → subject_number l = 999999999) := by
  haveI ht : IsTotal String (fun a b => subject_number a ≤ subject_number b) :=
    ⟨fun a b => Nat.le_total _ _⟩
  haveI htr : IsTrans String (fun a b => subject_number a ≤ subject_number b) :=
    ⟨fun a b c hab hbc => Nat.le_trans hab hbc⟩
  refine ⟨?_, ?_, ?_⟩
  · exact List.Pairwise.sublist (map_fst_filterMap_sublist _ _)
      (List.sorted_insertionSort _ _)
  · intro k
    exact dictGet_rebuild _ _
      (fun k => (List.perm_insertionSort _ _).mem_iff) k
  · intro l hl
    unfold subject_number
    rw [hl]

/-- Witness for the amended C9: a digit-free label receives the sentinel. -/
theorem C9_metadata_order_witness : subject_number "nodigits" = 999999999 :=
  (C9_metadata_order [] [] "s" "a" "x").2.2 "nodigits" (by decide)

/-- Witness for C2: three studies of one subject, the first resolved via the
session map, produce one label per study. -/
theorem C2_sequential_counter_witness :
    (assignSessions "sub-001" [("baseline", "01")]
      ["2023_01_01_001_baseline", "2023_01_02_001_x",
        "2023_01_03_001_y"]).length = 3 := by
  have h := (C2_sequential_counter "sub-001" [("baseline", "01")]
    ["2023_01_01_001_baseline", "2023_01_02_001_x", "2023_01_03_001_y"]).1
  simpa using h
